import Mathlib

/-!
# Verification of the FNN joint deep-clustering / sentiment model

Shallow embedding of the core of the `FNN` repository (two parallel
implementations: `src/FNN_1/model.py` on Keras and `src/FNN_1_GPU/model.py`
on PyTorch).  Machine floating point is modelled by exact arithmetic:
the Student's-t clustering kernel lives over `ℝ` (it uses a real power),
while the target distribution, class weights and loop bookkeeping are
rational, hence executable.
-/

namespace FNN

/-! ## Target distribution (`FNN.target_distribution`, `src/FNN_1/model.py`
lines 291-294; `FNNGPU.target_distribution`, `src/FNN_1_GPU/model.py`
lines 294-300)

`weight = q ** 2 / q.sum(0)` followed by `(weight.T / weight.sum(1)).T`:
`weight i j = q i j ^ 2 / (Σ i', q i' j)` and each row of `weight` is
divided by its own sum. -/

def tdWeight {n K : ℕ} (q : Fin n → Fin K → ℚ) : Fin n → Fin K → ℚ :=
  fun i j => (q i j) ^ 2 / (∑ i', q i' j)

def target_distribution {n K : ℕ} (q : Fin n → Fin K → ℚ) : Fin n → Fin K → ℚ :=
  fun i j => tdWeight q i j / (∑ j', tdWeight q i j')

/-! ## Class weights (`FNNGPU.compute_class_weights`,
`src/FNN_1_GPU/model.py` lines 302-331; the Keras variant delegates to
scikit-learn's `balanced` mode, which is the same formula
`total_samples / (n_classes * count[c])`)

Labels are a list of class indices; `np.unique` yields the observed
classes, the weight of an observed class `c` is
`total_samples / (n_classes * class_counts[c])`. -/

def uniqueClasses (y : List ℕ) : List ℕ :=
  y.dedup

def compute_class_weights (y : List ℕ) : ℕ → ℚ :=
  fun c => (y.length : ℚ) / (((uniqueClasses y).length : ℚ) * (y.count c : ℚ))

/-! ## delta_label (`src/FNN_1/model.py` lines 388-390,
`src/FNN_1_GPU/model.py` lines 514-516)

`delta_label = np.sum(y_pred != y_pred_last) / y_pred.shape[0]`. -/

def changedCount {n : ℕ} (yNew yOld : Fin n → ℕ) : ℕ :=
  (Finset.univ.filter (fun i => yNew i ≠ yOld i)).card

def deltaLabel {n : ℕ} (yNew yOld : Fin n → ℕ) : ℚ :=
  (changedCount yNew yOld : ℚ) / (n : ℚ)

/-! ## The training-loop control flow (`FNN.clustering_with_sentiment`,
`src/FNN_1/model.py` lines 382-423; `FNNGPU.clustering_with_sentiment`,
`src/FNN_1_GPU/model.py` lines 492-569)

`for ite in range(int(maxiter))`: at every iteration with
`ite % update_interval == 0` the target distribution is refreshed and a
fresh `delta_label` is computed; the loop breaks there when
`ite > 0 and delta_label < tol`.  The observed `delta_label` values are
abstracted as a function of the iteration at which the refresh happens. -/

def breakCond (delta : ℕ → ℚ) (tol : ℚ) (updateInterval ite : ℕ) : Bool :=
  ite % updateInterval == 0 && decide (0 < ite) && decide (delta ite < tol)

def runLoop (delta : ℕ → ℚ) (tol : ℚ) (updateInterval : ℕ) :
    ℕ → ℕ → ℕ
  | 0, ite => ite
  | fuel + 1, ite =>
      if breakCond delta tol updateInterval ite then ite
      else runLoop delta tol updateInterval fuel (ite + 1)

/-- The iteration at which `clustering_with_sentiment`'s `for` loop stops:
either the first refresh iteration (after the first) whose `delta_label`
falls below `tol`, or `maxiter` when the range is exhausted. -/
def exitIter (delta : ℕ → ℚ) (tol : ℚ) (updateInterval maxiter : ℕ) : ℕ :=
  runLoop delta tol updateInterval maxiter 0

/-! ## The clustering head (`ClusteringLayer.forward`,
`src/FNN_1_GPU/model.py` lines 58-74; the Keras `ClusteringLayer` computes
the same kernel)

```
q = 1.0 / (1.0 + (torch.sum(torch.square(x.unsqueeze(1) - self.clusters.unsqueeze(0)), dim=2) / self.alpha))
q = q ** ((self.alpha + 1.0) / 2.0)
q = q / torch.sum(q, dim=1, keepdim=True)
```
-/

noncomputable section

/-- Squared euclidean distance between sample `i` and centroid `j`. -/
def sqDist {n K d : ℕ} (x : Fin n → Fin d → ℝ) (clusters : Fin K → Fin d → ℝ) :
    Fin n → Fin K → ℝ :=
  fun i j => ∑ k, (x i k - clusters j k) ^ 2

/-- The unnormalized kernel as the code computes it:
`(1 / (1 + dist² / alpha)) ^ ((alpha + 1) / 2)` (a real power). -/
def kernelQ {n K d : ℕ} (alpha : ℝ) (x : Fin n → Fin d → ℝ)
    (clusters : Fin K → Fin d → ℝ) : Fin n → Fin K → ℝ :=
  fun i j => (1 / (1 + sqDist x clusters i j / alpha)) ^ ((alpha + 1) / 2)

/-- `ClusteringLayer.forward`: the kernel, rows normalized to sum 1. -/
def clusteringForward {n K d : ℕ} (alpha : ℝ) (x : Fin n → Fin d → ℝ)
    (clusters : Fin K → Fin d → ℝ) : Fin n → Fin K → ℝ :=
  fun i j => kernelQ alpha x clusters i j / ∑ j', kernelQ alpha x clusters i j'

/-- The spec's formula for the Student's-t similarity:
`t_ij = (1 + dist(x_i, centroid_j)² / alpha) ^ (-(alpha + 1) / 2)`. -/
def specStudentT {n K d : ℕ} (alpha : ℝ) (x : Fin n → Fin d → ℝ)
    (clusters : Fin K → Fin d → ℝ) : Fin n → Fin K → ℝ :=
  fun i j => (1 + sqDist x clusters i j / alpha) ^ (-((alpha + 1) / 2))

end

/-! ## Joint-model initialization

`FNN.initialize_model` (`src/FNN_1/model.py` lines 41-48): with
`ae_weights=None` it prints an instructive message and calls `exit()`
before any model is built; otherwise it loads the weights and assembles
the joint model.  `FNNGPU.__init__` (`src/FNN_1_GPU/model.py` lines
165-214) takes no pretrained-weights argument at all: it always succeeds,
with freshly (randomly) initialized components. -/

structure KerasJointModel where
  aeWeights : List ℚ
  gamma : ℚ
  eta : ℚ

def initialize_model (aeWeights : Option (List ℚ)) (gamma eta : ℚ) :
    Except String KerasJointModel :=
  match aeWeights with
  | some w => Except.ok ⟨w, gamma, eta⟩
  | none =>
      Except.error "ae_weights must be given. E.g. python FNN_1/model.py --ae_weights weights.h5"

structure GPUModel where
  dims : List ℕ
  nClusters : ℕ
  alpha : ℚ
  batchSize : ℕ
  pretrainedLoaded : Bool

def gpuInit (dims : List ℕ) (nClusters : ℕ) (alpha : ℚ) (batchSize : ℕ) :
    Except String GPUModel :=
  Except.ok ⟨dims, nClusters, alpha, batchSize, false⟩

/-! ## `predict` input dispatch (`FNN.predict`, `src/FNN_1/model.py`
lines 97-130; `FNNGPU.predict`, `src/FNN_1_GPU/model.py` lines 353-384)

Both begin: a bare string is wrapped into a one-element list; a list whose
first element is a string goes down the BERT tokenize-and-embed path; a
tensor is used directly.  They differ in the final `else`: the Keras
version raises `ValueError("Input must be a list of texts or embeddings
tensor")`, the GPU version instead runs
`torch.tensor(inputs, dtype=torch.float32)` on whatever it was given. -/

/-- A Python value arriving at `predict`. -/
inductive PyInput where
  | pyStr (s : String)
  | pyList (xs : List PyInput)
  | pyTensor (t : List (List ℚ))
  | pyOther

def PyInput.isStr : PyInput → Bool
  | .pyStr _ => true
  | _ => false

/-- What `predict` does with its input. -/
inductive PredictPath where
  /-- tokenizer + BERT embedding path. -/
  | bertPath
  /-- the input is used directly as an embeddings tensor. -/
  | tensorPath
  /-- GPU fallback: `torch.tensor(inputs, ...)` conversion attempt. -/
  | convertPath
  /-- Keras fallback: `raise ValueError(...)`. -/
  | valueError
  /-- `inputs[0]` on an empty list raises `IndexError`. -/
  | indexError
deriving DecidableEq

/-- Dispatch of `FNN.predict` (Keras). -/
def kerasPredictDispatch : PyInput → PredictPath
  | .pyStr _ => .bertPath
  | .pyList [] => .indexError
  | .pyList (x :: _) => if x.isStr then .bertPath else .valueError
  | .pyTensor _ => .tensorPath
  | .pyOther => .valueError

/-- Dispatch of `FNNGPU.predict`. -/
def gpuPredictDispatch : PyInput → PredictPath
  | .pyStr _ => .bertPath
  | .pyList [] => .indexError
  | .pyList (x :: _) => if x.isStr then .bertPath else .convertPath
  | .pyTensor _ => .tensorPath
  | .pyOther => .convertPath

/-! ## Labeled vs unlabeled training (`FNN.clustering_with_sentiment`,
`src/FNN_1/model.py` lines 346-358 and 425-474;
`FNNGPU.clustering_with_sentiment`, `src/FNN_1_GPU/model.py` lines
437-449 and 580-615)

Setup: both compute class weights inside the branch taken only when the
label list is non-empty, else they set the weights to `None`.

Per-iteration training: the GPU version always iterates the batch loader;
a batch carries labels exactly when the dataset was labeled, and
`s_loss = 0` when `y_batch is None`, the optimizer stepping on
`gamma * c_loss + eta * s_loss`.  The Keras version wraps its entire
`train_on_batch` block in `if y_sentiment is not None:` with no `else`,
so an unlabeled dataset performs no training call at all. -/

/-- `sentiment_class_weights` after setup; `some` exactly when
`compute_class_weights` was invoked. -/
def gpuSetupClassWeights (allLabels : List ℕ) : Option (ℕ → ℚ) :=
  if allLabels.isEmpty then none else some (compute_class_weights allLabels)

/-- Keras setup (`if sentiment_labels: ... else: ... None`). -/
def kerasSetupClassWeights (sentimentLabels : List ℕ) : Option (ℕ → ℚ) :=
  if sentimentLabels.isEmpty then none else some (compute_class_weights sentimentLabels)

/-- Labels carried by one GPU training batch: `None` when the dataset had
no labels. -/
def gpuBatchLabels (ySentiment : Option (List ℕ)) (batchLabels : List ℕ) :
    Option (List ℕ) :=
  match ySentiment with
  | none => none
  | some _ => some batchLabels

/-- One GPU gradient step: returns `(loss stepped on, sentiment component)`.
`s_loss = 0` when the batch has no labels;
`loss = gamma * c_loss + eta * s_loss`; the optimizer steps
unconditionally. -/
def gpuTrainStep (gamma eta cLoss sLossValue : ℚ) (yBatch : Option (List ℕ)) :
    ℚ × ℚ :=
  let sLoss : ℚ := match yBatch with
    | none => 0
    | some _ => sLossValue
  (gamma * cLoss + eta * sLoss, sLoss)

/-- How many `train_on_batch` calls one iteration of the Keras loop makes:
the whole block sits under `if y_sentiment is not None:` and, when taken,
performs exactly one call (remainder or regular branch). -/
def kerasTrainCallsPerIteration (ySentiment : Option (List ℕ)) : ℕ :=
  match ySentiment with
  | none => 0
  | some _ => 1

/-! ## `map_texts_to_clusters` (`src/FNN_1/model.py` lines 192-227;
`src/FNN_1_GPU/model.py` lines 668-695; both bodies are identical)

`n = min(len(texts), len(cluster_assignments))`; for `i in range(n)` the
text is appended to the dict entry of its cluster (a Python dict keeps
insertion order, a fresh key goes to the end); then for every key, the
texts are joined, lowercased, split on whitespace, filtered by stop words
and token length > 2, counted, and the 20 most common words kept. -/

def addToCluster (clusters : List (ℕ × List String)) (c : ℕ) (t : String) :
    List (ℕ × List String) :=
  match clusters with
  | [] => [(c, [t])]
  | (k, ts) :: rest =>
      if k = c then (k, ts ++ [t]) :: rest else (k, ts) :: addToCluster rest c t

def buildClusters (pairs : List (String × ℕ)) : List (ℕ × List String) :=
  pairs.foldl (fun acc p => addToCluster acc p.2 p.1) []

/-- Python's `str.split()`: split on whitespace runs, no empty pieces. -/
def pySplit (s : String) : List String :=
  (s.split Char.isWhitespace).filter (fun w => w != "")

def filteredWords (stopWords : List String) (words : List String) : List String :=
  words.filter (fun w => !(stopWords.contains w) && decide (2 < w.length))

/-- Distinct elements in order of first occurrence (`Counter` key order). -/
def firstOccurrences (ws : List String) : List String :=
  ws.foldl (fun acc w => if acc.contains w then acc else acc ++ [w]) []

/-- Stable descending insertion by count (`Counter.most_common`). -/
def insertByCount (p : String × ℕ) : List (String × ℕ) → List (String × ℕ)
  | [] => [p]
  | q :: rest => if q.2 < p.2 then p :: q :: rest else q :: insertByCount p rest

def topCommonWords (stopWords : List String) (clusterTexts : List String) :
    List (String × ℕ) :=
  let ws := filteredWords stopWords (pySplit (" ".intercalate clusterTexts).toLower)
  (((firstOccurrences ws).map (fun w => (w, ws.count w))).foldr insertByCount []).take 20

def map_texts_to_clusters (stopWords : List String) (texts : List String)
    (clusterAssignments : List ℕ) :
    List (ℕ × List String) × List (ℕ × List (String × ℕ)) :=
  let clusters := buildClusters (texts.zip clusterAssignments)
  let clusterCommonWords := clusters.map (fun ct => (ct.1, topCommonWords stopWords ct.2))
  (clusters, clusterCommonWords)

/-- Total number of texts held across all cluster buckets. -/
def clusterSizes (clusters : List (ℕ × List String)) : ℕ :=
  (clusters.map (fun ct => ct.2.length)).sum

end FNN

namespace FNN

/-! ### Theorems -/

/-- C2.  For every matrix `q` with non-negative entries and strictly
positive row and column sums, `target_distribution q` is exactly the
matrix obtained by forming `weight i j = q i j ^ 2 / (Σ i', q i' j)` and
renormalizing each row of `weight`, and every one of its rows sums
to 1. -/
theorem c2_target_distribution_rows_sum_one {n K : ℕ} (q : Fin n → Fin K → ℚ)
    (hnn : ∀ i j, 0 ≤ q i j)
    (hrow : ∀ i, 0 < ∑ j, q i j)
    (hcol : ∀ j, 0 < ∑ i, q i j) :
    (∀ i j, target_distribution q i j =
      ((q i j) ^ 2 / (∑ i', q i' j)) / (∑ j', (q i j') ^ 2 / (∑ i', q i' j'))) ∧
    (∀ i, ∑ j, target_distribution q i j = 1) := by
  have hwnn : ∀ i j, 0 ≤ tdWeight q i j := by
    intro i j
    exact div_nonneg (sq_nonneg _) (le_of_lt (hcol j))
  have hwsum : ∀ i, 0 < ∑ j', tdWeight q i j' := by
    intro i
    obtain ⟨j₀, hj₀⟩ : ∃ j, 0 < q i j := by
      by_contra h
      push_neg at h
      have hzero : ∑ j, q i j = 0 :=
        Finset.sum_eq_zero fun j _ => le_antisymm (h j) (hnn i j)
      exact absurd (hrow i) (by simp [hzero])
    refine Finset.sum_pos' (fun j _ => hwnn i j) ⟨j₀, Finset.mem_univ j₀, ?_⟩
    exact div_pos (pow_pos hj₀ 2) (hcol j₀)
  refine ⟨fun i j => rfl, fun i => ?_⟩
  unfold target_distribution
  rw [← Finset.sum_div, div_self (ne_of_gt (hwsum i))]

/-- C2 witness: a uniform 2×2 `q` satisfies the hypotheses and its first
row of `target_distribution` sums to 1. -/
theorem c2_witness :
    ∑ j, target_distribution (fun (_ : Fin 2) (_ : Fin 2) => (1 / 2 : ℚ)) 0 j = 1 :=
  (c2_target_distribution_rows_sum_one (fun _ _ => (1 / 2 : ℚ))
    (fun _ _ => by norm_num)
    (fun i => by simp [Fin.sum_univ_two])
    (fun j => by simp [Fin.sum_univ_two])).2 0

/-- The observed classes of a list of `a + 1` zeros and `b + 1` ones are
`[0, 1]`. -/
theorem uniqueClasses_replicate_pair (a b : ℕ) :
    uniqueClasses (List.replicate (a + 1) 0 ++ List.replicate (b + 1) 1) = [0, 1] := by
  rw [uniqueClasses, List.dedup_append, List.replicate_dedup (Nat.succ_ne_zero b)]
  induction a with
  | zero => simp [List.cons_union, List.nil_union, List.insert_of_not_mem]
  | succ n ih =>
      rw [List.replicate_succ, List.cons_union] at ih ⊢
      rw [List.replicate_succ, List.cons_union, ih]
      simp [List.insert_of_mem]

theorem cw_replicate_pair (a b c : ℕ) :
    compute_class_weights (List.replicate (a + 1) 0 ++ List.replicate (b + 1) 1) c =
      (((a + 1) + (b + 1) : ℕ) : ℚ) /
        (2 * ((List.replicate (a + 1) 0 ++ List.replicate (b + 1) 1).count c : ℚ)) := by
  rw [compute_class_weights, uniqueClasses_replicate_pair]
  simp only [List.length_append, List.length_replicate, List.length_cons, List.length_nil]
  norm_num

/-- C4.  For every label list, the weight of every observed class `c` is
`total_samples / (num_classes * count c)`; on a balanced 2-class dataset
(50/50) both weights are 1, and with counts `{negative: 100,
positive: 25}` the positive weight is 4 times the negative one. -/
theorem c4_compute_class_weights (y : List ℕ) (c : ℕ) (_hc : c ∈ uniqueClasses y) :
    compute_class_weights y c =
      (y.length : ℚ) / (((uniqueClasses y).length : ℚ) * (y.count c : ℚ)) ∧
    (compute_class_weights (List.replicate 50 0 ++ List.replicate 50 1) 0 = 1 ∧
     compute_class_weights (List.replicate 50 0 ++ List.replicate 50 1) 1 = 1) ∧
    compute_class_weights (List.replicate 100 0 ++ List.replicate 25 1) 1 =
      4 * compute_class_weights (List.replicate 100 0 ++ List.replicate 25 1) 0 := by
  refine ⟨rfl, ⟨?_, ?_⟩, ?_⟩
  · rw [show (50 : ℕ) = 49 + 1 from rfl, cw_replicate_pair]
    simp only [List.count_append, List.count_replicate]
    norm_num
  · rw [show (50 : ℕ) = 49 + 1 from rfl, cw_replicate_pair]
    simp only [List.count_append, List.count_replicate]
    norm_num
  · rw [show (100 : ℕ) = 99 + 1 from rfl, show (25 : ℕ) = 24 + 1 from rfl,
      cw_replicate_pair, cw_replicate_pair]
    simp only [List.count_append, List.count_replicate]
    norm_num

/-- C4 witness: the formula applied to the two-label list `[0, 1]` at the
observed class `0`. -/
theorem c4_witness :
    compute_class_weights [0, 1] 0 =
      (([0, 1] : List ℕ).length : ℚ) /
        (((uniqueClasses [0, 1]).length : ℚ) * ((([0, 1] : List ℕ).count 0) : ℚ)) :=
  (c4_compute_class_weights [0, 1] 0 (by decide)).1

/-- C8.  At a refresh over `n > 0` samples, `delta_label` lies in `[0, 1]`
and is 0 exactly when no sample's arg-max assignment changed. -/
theorem c8_delta_label_bounds {n : ℕ} (hn : 0 < n) (yNew yOld : Fin n → ℕ) :
    0 ≤ deltaLabel yNew yOld ∧ deltaLabel yNew yOld ≤ 1 ∧
    (deltaLabel yNew yOld = 0 ↔ ∀ i, yNew i = yOld i) := by
  have hnQ : (0 : ℚ) < (n : ℚ) := by exact_mod_cast hn
  have hcard : changedCount yNew yOld ≤ n := by
    calc (Finset.univ.filter (fun i => yNew i ≠ yOld i)).card
        ≤ (Finset.univ : Finset (Fin n)).card := Finset.card_filter_le _ _
      _ = n := Finset.card_univ.trans (Fintype.card_fin n)
  refine ⟨div_nonneg (Nat.cast_nonneg _) (Nat.cast_nonneg _), ?_, ?_⟩
  · rw [deltaLabel, div_le_one hnQ]
    exact_mod_cast hcard
  · rw [deltaLabel, div_eq_zero_iff]
    constructor
    · intro h
      have hzero : (changedCount yNew yOld : ℚ) = 0 := by
        rcases h with h | h
        · exact h
        · exact absurd h (ne_of_gt hnQ)
      have : changedCount yNew yOld = 0 := by exact_mod_cast hzero
      have hempty := Finset.card_eq_zero.mp this
      intro i
      by_contra hne
      have : i ∈ Finset.univ.filter (fun i => yNew i ≠ yOld i) :=
        Finset.mem_filter.mpr ⟨Finset.mem_univ i, hne⟩
      simp [hempty] at this
    · intro h
      left
      have : Finset.univ.filter (fun i => yNew i ≠ yOld i) = ∅ := by
        apply Finset.filter_eq_empty_iff.mpr
        intro i _
        simp [h i]
      simp [changedCount, this]

/-- C8 witness: two samples, unchanged assignments, `delta_label = 0`. -/
theorem c8_witness :
    deltaLabel (n := 2) (fun _ => 0) (fun _ => 0) = 0 :=
  ((c8_delta_label_bounds (by decide) (fun _ => 0) (fun _ => 0)).2.2).mpr fun _ => rfl

/-- Invariant of the fuel-indexed loop: the result lies in
`[start, start + fuel]`, the break condition is false strictly before it,
and it holds at the result whenever the fuel was not exhausted. -/
theorem runLoop_invariant (delta : ℕ → ℚ) (tol : ℚ) (ui : ℕ) :
    ∀ fuel start,
      start ≤ runLoop delta tol ui fuel start ∧
      runLoop delta tol ui fuel start ≤ start + fuel ∧
      (∀ j, start ≤ j → j < runLoop delta tol ui fuel start →
        breakCond delta tol ui j = false) ∧
      (runLoop delta tol ui fuel start < start + fuel →
        breakCond delta tol ui (runLoop delta tol ui fuel start) = true) := by
  intro fuel
  induction fuel with
  | zero =>
      intro start
      refine ⟨le_refl _, le_refl _, ?_, ?_⟩
      · intro j h1 h2
        exact absurd (lt_of_le_of_lt h1 h2) (lt_irrefl _)
      · intro h
        exact absurd h (lt_irrefl _)
  | succ f ih =>
      intro start
      by_cases hb : breakCond delta tol ui start = true
      · rw [runLoop, if_pos hb]
        refine ⟨le_refl _, Nat.le_add_right _ _, ?_, fun _ => hb⟩
        intro j h1 h2
        exact absurd (lt_of_le_of_lt h1 h2) (lt_irrefl _)
      · have hbf : breakCond delta tol ui start = false := Bool.eq_false_iff.mpr hb
        rw [runLoop, if_neg hb]
        obtain ⟨ih1, ih2, ih3, ih4⟩ := ih (start + 1)
        refine ⟨le_trans (Nat.le_succ _) ih1, by omega, ?_, ?_⟩
        · intro j h1 h2
          rcases Nat.eq_or_lt_of_le h1 with rfl | h1'
          · exact hbf
          · exact ih3 j h1' h2
        · intro h
          exact ih4 (by omega)

/-- C3.  The joint training loop runs for at most `maxiter` iterations;
it breaks early exactly at the first refresh iteration
(`ite % update_interval = 0`) other than the first (`0 < ite`) whose
`delta_label` is below `tol`, and no earlier qualifying iteration is
skipped. -/
theorem c3_loop_termination (delta : ℕ → ℚ) (tol : ℚ) (ui maxiter : ℕ)
    (_hui : 0 < ui) :
    exitIter delta tol ui maxiter ≤ maxiter ∧
    (∀ j < exitIter delta tol ui maxiter,
      ¬ (j % ui = 0 ∧ 0 < j ∧ delta j < tol)) ∧
    (exitIter delta tol ui maxiter < maxiter →
      (exitIter delta tol ui maxiter) % ui = 0 ∧
      0 < exitIter delta tol ui maxiter ∧
      delta (exitIter delta tol ui maxiter) < tol) ∧
    ((∃ j, j < maxiter ∧ j % ui = 0 ∧ 0 < j ∧ delta j < tol) →
      exitIter delta tol ui maxiter < maxiter) := by
  have hcond : ∀ j, breakCond delta tol ui j = true ↔
      (j % ui = 0 ∧ 0 < j ∧ delta j < tol) := by
    intro j
    simp [breakCond, Bool.and_eq_true, decide_eq_true_iff, Nat.beq_eq_true_eq,
      and_assoc]
  obtain ⟨h1, h2, h3, h4⟩ := runLoop_invariant delta tol ui maxiter 0
  rw [Nat.zero_add] at h2 h4
  refine ⟨h2, ?_, ?_, ?_⟩
  · intro j hj hcj
    have := h3 j (Nat.zero_le j) hj
    rw [← hcond j, this] at hcj
    exact Bool.false_ne_true hcj
  · intro h
    exact (hcond _).mp (h4 h)
  · rintro ⟨j, hjm, hj⟩
    by_contra h
    have hme : exitIter delta tol ui maxiter = maxiter :=
      le_antisymm h2 (Nat.le_of_not_lt h)
    have := h3 j (Nat.zero_le j) (by rw [← hme] at hjm; exact hjm)
    rw [← hcond j, this] at hj
    exact Bool.false_ne_true hj

/-- C3 witness: `delta ≡ 0 < tol = 1`, `update_interval = 1`,
`maxiter = 3`: the loop exits within the iteration budget (at
iteration 1, the first refresh after iteration 0). -/
theorem c3_witness :
    exitIter (fun _ => 0) 1 1 3 ≤ 3 :=
  (c3_loop_termination (fun _ => 0) 1 1 3 (by decide)).1

/-- For `alpha > 0` the kernel base `1 + dist² / alpha` is positive. -/
theorem kernelBase_pos {n K d : ℕ} (alpha : ℝ) (halpha : 0 < alpha)
    (x : Fin n → Fin d → ℝ) (clusters : Fin K → Fin d → ℝ) (i : Fin n) (j : Fin K) :
    (0 : ℝ) < 1 + sqDist x clusters i j / alpha := by
  have hsq : 0 ≤ sqDist x clusters i j := Finset.sum_nonneg fun k _ => sq_nonneg _
  positivity

/-- The kernel exactly as the code computes it,
`(1 / (1 + d² / alpha)) ^ ((alpha + 1) / 2)`, equals the spec's
`(1 + d² / alpha) ^ (-(alpha + 1) / 2)`. -/
theorem kernelQ_eq_specStudentT {n K d : ℕ} (alpha : ℝ) (halpha : 0 < alpha)
    (x : Fin n → Fin d → ℝ) (clusters : Fin K → Fin d → ℝ) (i : Fin n) (j : Fin K) :
    kernelQ alpha x clusters i j = specStudentT alpha x clusters i j := by
  have hbase := kernelBase_pos alpha halpha x clusters i j
  rw [kernelQ, specStudentT, one_div, Real.inv_rpow hbase.le,
    ← Real.rpow_neg hbase.le]

theorem kernelQ_pos {n K d : ℕ} (alpha : ℝ) (halpha : 0 < alpha)
    (x : Fin n → Fin d → ℝ) (clusters : Fin K → Fin d → ℝ) (i : Fin n) (j : Fin K) :
    0 < kernelQ alpha x clusters i j := by
  have hbase := kernelBase_pos alpha halpha x clusters i j
  have hinv : (0 : ℝ) < 1 / (1 + sqDist x clusters i j / alpha) := by positivity
  exact Real.rpow_pos_of_pos hinv _

/-- C1.  For every bottleneck batch and centroid set of size `K > 0` and
every `alpha > 0`, the clustering head's forward pass returns
`q i j = t i j / Σ k, t i k` with
`t i j = (1 + dist(x_i, centroid_j)² / alpha) ^ (-(alpha + 1) / 2)`, and
every row of `q` sums to 1 (exactly, in the real-number model, hence
within any floating tolerance). -/
theorem c1_clustering_forward_rows {n K d : ℕ} (hK : 0 < K)
    (alpha : ℝ) (halpha : 0 < alpha)
    (x : Fin n → Fin d → ℝ) (clusters : Fin K → Fin d → ℝ) :
    (∀ i j, clusteringForward alpha x clusters i j =
      specStudentT alpha x clusters i j /
        ∑ j', specStudentT alpha x clusters i j') ∧
    (∀ i, ∑ j, clusteringForward alpha x clusters i j = 1) := by
  have hker := kernelQ_eq_specStudentT alpha halpha x clusters
  have hsum : ∀ i, 0 < ∑ j', kernelQ alpha x clusters i j' := by
    intro i
    have : Nonempty (Fin K) := ⟨⟨0, hK⟩⟩
    exact Finset.sum_pos (fun j _ => kernelQ_pos alpha halpha x clusters i j)
      Finset.univ_nonempty
  constructor
  · intro i j
    rw [clusteringForward]
    simp only [hker]
  · intro i
    unfold clusteringForward
    rw [← Finset.sum_div, div_self (ne_of_gt (hsum i))]

/-- C1 witness: one sample, one centroid, one dimension, `alpha = 1`:
the single row of `q` sums to 1. -/
theorem c1_witness :
    ∑ j, clusteringForward (1 : ℝ) (fun (_ : Fin 1) (_ : Fin 1) => (0 : ℝ))
      (fun (_ : Fin 1) (_ : Fin 1) => (0 : ℝ)) 0 j = 1 :=
  (c1_clustering_forward_rows Nat.one_pos 1 one_pos
    (fun _ _ => 0) (fun _ _ => 0)).2 0

/-- C7.  With `alpha > 0` and every centroid distinct from every
bottleneck point, every entry of `q` is strictly positive, so the
`log q` of the KL clustering loss is taken at a positive argument.
(The positivity in fact needs only `alpha > 0`.) -/
theorem c7_q_entries_positive {n K d : ℕ} (alpha : ℝ) (halpha : 0 < alpha)
    (x : Fin n → Fin d → ℝ) (clusters : Fin K → Fin d → ℝ)
    (_hne : ∀ i j, x i ≠ clusters j) :
    ∀ i j, 0 < clusteringForward alpha x clusters i j := by
  intro i j
  have hsum : 0 < ∑ j', kernelQ alpha x clusters i j' :=
    Finset.sum_pos (fun j' _ => kernelQ_pos alpha halpha x clusters i j')
      ⟨j, Finset.mem_univ j⟩
  exact div_pos (kernelQ_pos alpha halpha x clusters i j) hsum

/-- C7 witness: a point at 0 and a centroid at 1, `alpha = 1`: the single
entry of `q` is strictly positive. -/
theorem c7_witness :
    0 < clusteringForward (1 : ℝ) (fun (_ : Fin 1) (_ : Fin 1) => (0 : ℝ))
      (fun (_ : Fin 1) (_ : Fin 1) => (1 : ℝ)) 0 0 :=
  c7_q_entries_positive 1 one_pos (fun _ _ => 0) (fun _ _ => 1)
    (fun i j h => by have h0 := congrFun h 0; norm_num at h0) 0 0

/-- C5 counterexample.  The claim asserts that with no labels the
training loop still performs gradient steps on the clustering loss; but
the Keras implementation's whole `train_on_batch` block sits under
`if y_sentiment is not None:` (`src/FNN_1/model.py` line 426) with no
`else`, so an unlabeled dataset performs zero training calls per loop
iteration. -/
theorem c5_counterexample : kerasTrainCallsPerIteration none = 0 := rfl

/-- C5 amended.  For an unlabeled dataset, neither implementation ever
invokes `compute_class_weights` (both setups leave the class weights
`None`); every GPU batch then carries no labels, its sentiment loss term
is 0 and its gradient step uses `gamma * c_loss` alone; the Keras
implementation instead skips its `train_on_batch` block entirely and
performs no gradient steps. -/
theorem c5_unlabeled_training (gamma eta cLoss sLossValue : ℚ)
    (batchLabels : List ℕ) :
    gpuSetupClassWeights [] = none ∧
    kerasSetupClassWeights [] = none ∧
    gpuBatchLabels none batchLabels = none ∧
    gpuTrainStep gamma eta cLoss sLossValue (gpuBatchLabels none batchLabels) =
      (gamma * cLoss, 0) ∧
    kerasTrainCallsPerIteration none = 0 := by
  refine ⟨rfl, rfl, rfl, ?_, rfl⟩
  simp [gpuTrainStep, gpuBatchLabels]

/-- C6 counterexample.  The claim asserts the system terminates early with
an instructive error when no pretrained autoencoder weights are supplied
at joint-model initialization; but `FNNGPU.__init__` takes no weights
argument at all and always succeeds with randomly initialized components
(`pretrainedLoaded = false`), and joint training is reachable on that
fresh model. -/
theorem c6_counterexample :
    gpuInit [768, 500, 500, 2000, 10] 10 1 256 =
      Except.ok ⟨[768, 500, 500, 2000, 10], 10, 1, 256, false⟩ := rfl

/-- C6 amended.  In the Keras implementation, `initialize_model` with
`ae_weights=None` terminates early with the instructive usage message and
builds no joint model; the joint model exists only when weights are
supplied.  The GPU implementation performs no such check. -/
theorem c6_requires_pretrained_weights (gamma eta : ℚ) :
    initialize_model none gamma eta =
      Except.error "ae_weights must be given. E.g. python FNN_1/model.py --ae_weights weights.h5" ∧
    (∀ w, initialize_model (some w) gamma eta = Except.ok ⟨w, gamma, eta⟩) ∧
    (∀ dims nClusters alpha batchSize,
      gpuInit dims nClusters alpha batchSize =
        Except.ok ⟨dims, nClusters, alpha, batchSize, false⟩) :=
  ⟨rfl, fun _ => rfl, fun _ _ _ _ => rfl⟩

/-- C9 counterexample.  The claim asserts every input that is neither a
string, a list of strings, nor a tensor/array triggers an explicit
invalid-input error; but the GPU `predict`'s final `else` instead runs
`torch.tensor(inputs, dtype=torch.float32)` on such an input, proceeding
(or crashing inside the converter), never raising the explicit
`ValueError`. -/
theorem c9_counterexample :
    gpuPredictDispatch PyInput.pyOther = PredictPath.convertPath ∧
    PredictPath.convertPath ≠ PredictPath.valueError :=
  ⟨rfl, by decide⟩

/-- C9 amended.  The Keras `predict` raises the explicit
`ValueError("Input must be a list of texts or embeddings tensor")`
exactly for inputs that are neither a string, nor a tensor, nor a list
whose first element is a string (the empty list instead raises
`IndexError` at `inputs[0]`); on exactly those same inputs the GPU
`predict` coerces with `torch.tensor` instead of raising the explicit
error. -/
theorem c9_predict_dispatch (v : PyInput) :
    (kerasPredictDispatch v = PredictPath.valueError ↔
      (v = PyInput.pyOther ∨
        ∃ x xs, v = PyInput.pyList (x :: xs) ∧ x.isStr = false)) ∧
    (gpuPredictDispatch v = PredictPath.convertPath ↔
      (v = PyInput.pyOther ∨
        ∃ x xs, v = PyInput.pyList (x :: xs) ∧ x.isStr = false)) ∧
    kerasPredictDispatch (PyInput.pyList []) = PredictPath.indexError ∧
    gpuPredictDispatch (PyInput.pyList []) = PredictPath.indexError := by
  refine ⟨?_, ?_⟩
  · cases v with
    | pyStr s => simp [kerasPredictDispatch]
    | pyTensor t => simp [kerasPredictDispatch]
    | pyOther => simp [kerasPredictDispatch]
    | pyList xs =>
        cases xs with
        | nil => simp [kerasPredictDispatch]
        | cons x rest =>
            by_cases hx : x.isStr = true
            · simp [kerasPredictDispatch, hx]
            · have hxf : x.isStr = false := Bool.eq_false_iff.mpr hx
              simp [kerasPredictDispatch, hxf]
  refine ⟨?_, rfl, rfl⟩
  cases v with
  | pyStr s => simp [gpuPredictDispatch]
  | pyTensor t => simp [gpuPredictDispatch]
  | pyOther => simp [gpuPredictDispatch]
  | pyList xs =>
      cases xs with
      | nil => simp [gpuPredictDispatch]
      | cons x rest =>
          by_cases hx : x.isStr = true
          · simp [gpuPredictDispatch, hx]
          · have hxf : x.isStr = false := Bool.eq_false_iff.mpr hx
            simp [gpuPredictDispatch, hxf]

/-- Appending one text grows the total bucket size by exactly one. -/
theorem clusterSizes_addToCluster (acc : List (ℕ × List String)) (c : ℕ) (t : String) :
    clusterSizes (addToCluster acc c t) = clusterSizes acc + 1 := by
  induction acc with
  | nil => simp [addToCluster, clusterSizes]
  | cons kv rest ih =>
      obtain ⟨k, ts⟩ := kv
      by_cases h : k = c
      · simp [addToCluster, h, clusterSizes]
        omega
      · simp only [addToCluster, if_neg h, clusterSizes, List.map_cons,
          List.sum_cons] at ih ⊢
        omega

theorem clusterSizes_foldl (pairs : List (String × ℕ)) :
    ∀ acc, clusterSizes
        (pairs.foldl (fun a p => addToCluster a p.2 p.1) acc) =
      clusterSizes acc + pairs.length := by
  induction pairs with
  | nil => intro acc; simp
  | cons p rest ih =>
      intro acc
      rw [List.foldl_cons, ih, clusterSizes_addToCluster, List.length_cons]
      omega

theorem mem_addToCluster_self (c : ℕ) (t : String) :
    ∀ acc, ∃ ts, (c, ts) ∈ addToCluster acc c t ∧ t ∈ ts := by
  intro acc
  induction acc with
  | nil => exact ⟨[t], by simp [addToCluster]⟩
  | cons kv rest ih =>
      obtain ⟨k, ts⟩ := kv
      by_cases h : k = c
      · subst h
        exact ⟨ts ++ [t], by simp [addToCluster]⟩
      · obtain ⟨ts₂, hmem, ht⟩ := ih
        exact ⟨ts₂, by simp [addToCluster, h]; right; exact hmem, ht⟩

theorem mem_addToCluster_mono (c : ℕ) (t : String) (c' : ℕ) (t' : String)
    (ts' : List String) (ht : t' ∈ ts') :
    ∀ acc, (c', ts') ∈ acc →
      ∃ ts₂, (c', ts₂) ∈ addToCluster acc c t ∧ t' ∈ ts₂ := by
  intro acc
  induction acc with
  | nil => intro hm; simp at hm
  | cons kv rest ih =>
      obtain ⟨k, ts⟩ := kv
      intro hm
      rcases List.mem_cons.mp hm with heq | htail
      · obtain ⟨hk, hts⟩ := Prod.mk.injEq .. ▸ heq
        subst hk
        subst hts
        by_cases h : c' = c
        · subst h
          exact ⟨ts' ++ [t], by simp [addToCluster], List.mem_append_left _ ht⟩
        · exact ⟨ts', by simp [addToCluster, h], ht⟩
      · by_cases h : k = c
        · subst h
          exact ⟨ts', by simp [addToCluster]; right; exact htail, ht⟩
        · obtain ⟨ts₂, hmem, ht₂⟩ := ih htail
          exact ⟨ts₂, by simp [addToCluster, h]; right; exact hmem, ht₂⟩

theorem mem_foldl_clusters_mono (c' : ℕ) (t' : String) :
    ∀ (pairs : List (String × ℕ)) acc ts', (c', ts') ∈ acc → t' ∈ ts' →
      ∃ ts₂, (c', ts₂) ∈ pairs.foldl (fun a p => addToCluster a p.2 p.1) acc ∧
        t' ∈ ts₂ := by
  intro pairs
  induction pairs with
  | nil =>
      intro acc ts' hm ht
      exact ⟨ts', hm, ht⟩
  | cons p rest ih =>
      intro acc ts' hm ht
      obtain ⟨ts₂, hm₂, ht₂⟩ := mem_addToCluster_mono p.2 p.1 c' t' ts' ht acc hm
      exact ih (addToCluster acc p.2 p.1) ts₂ hm₂ ht₂

theorem mem_buildClusters_aux :
    ∀ (pairs : List (String × ℕ)) acc (t : String) (c : ℕ), (t, c) ∈ pairs →
      ∃ ts, (c, ts) ∈ pairs.foldl (fun a p => addToCluster a p.2 p.1) acc ∧
        t ∈ ts := by
  intro pairs
  induction pairs with
  | nil => intro acc t c hm; simp at hm
  | cons p rest ih =>
      intro acc t c hm
      rcases List.mem_cons.mp hm with heq | htail
      · obtain rfl := heq.symm
        obtain ⟨ts, hmem, ht⟩ := mem_addToCluster_self c t acc
        exact mem_foldl_clusters_mono c t rest (addToCluster acc c t) ts hmem ht
      · exact ih (addToCluster acc p.2 p.1) t c htail

/-- C10.  For every texts list and assignment array (equal length or
not), `map_texts_to_clusters` processes exactly the first
`min (texts.length) (assignments.length)` items (the total bucket size
equals that minimum, each processed text landing in the bucket of its own
cluster), and the two returned dictionaries share the same keys in the
same order. -/
theorem c10_map_texts_to_clusters (stopWords texts : List String)
    (assignments : List ℕ) :
    clusterSizes (map_texts_to_clusters stopWords texts assignments).1 =
      min texts.length assignments.length ∧
    (map_texts_to_clusters stopWords texts assignments).2.map Prod.fst =
      (map_texts_to_clusters stopWords texts assignments).1.map Prod.fst ∧
    (∀ t c, (t, c) ∈ texts.zip assignments →
      ∃ ts, (c, ts) ∈ (map_texts_to_clusters stopWords texts assignments).1 ∧
        t ∈ ts) := by
  refine ⟨?_, ?_, ?_⟩
  · show clusterSizes (buildClusters (texts.zip assignments)) = _
    rw [buildClusters, clusterSizes_foldl]
    simp [clusterSizes, List.length_zip]
  · simp [map_texts_to_clusters, List.map_map, Function.comp]
  · intro t c hm
    exact mem_buildClusters_aux (texts.zip assignments) [] t c hm

end FNN
